import Mathlib

/-!
Verification of the minetestworld map-block codec, position/addressing math
and VoxelManip cache against their specification.

The Rust source is shallowly embedded: machine integers become Nat/Int with
explicit reductions modulo 2^w exactly where the source performs a cast or
where wrapping arithmetic can occur; byte streams become List Nat; fallible
reads return Option.  The zstd compression layer wrapped around the map-block
payload is an external lossless codec and is modelled as the identity on the
payload bytes, so MapBlock.from_data / MapBlock.to_binary below operate on a
version byte followed by the uncompressed payload.
-/

/-- Semantics of a Rust `as u16` cast applied to a signed 16-bit value
(represented as Int): reduce into the range 0..65535. -/
def toU16 (n : Int) : Nat := (n % 65536).toNat

/-- Semantics of a Rust `as i16` cast (represented on Int): wrap into the
range -32768..32767. -/
def toI16 (n : Int) : Int := (n + 32768) % 65536 - 32768

/-- Semantics of a Rust `as u16` cast applied to a usize value: reduce
modulo 65536. -/
def lenU16 (n : Nat) : Nat := n % 65536

/-- Semantics of a Rust `as u32` cast applied to a usize value: reduce
modulo 2^32. -/
def lenU32 (n : Nat) : Nat := n % 4294967296

/-- Side length of map blocks (`MAPBLOCK_LENGTH` in map_block.rs). -/
def MAPBLOCK_LENGTH : Nat := 16

/-- Number of nodes in a map block (`MAPBLOCK_SIZE` in map_block.rs). -/
def MAPBLOCK_SIZE : Nat := MAPBLOCK_LENGTH * MAPBLOCK_LENGTH * MAPBLOCK_LENGTH

/-- Content type string for unknown content (`CONTENT_UNKNOWN`). -/
def CONTENT_UNKNOWN : List Nat := [117, 110, 107, 110, 111, 119, 110]

/-- Content type string for ungenerated nodes (`CONTENT_IGNORE`, b"ignore"). -/
def CONTENT_IGNORE : List Nat := [105, 103, 110, 111, 114, 101]

/-- A point location within the world (positions.rs, struct Position).
The Rust fields are i16; they are modelled as Int, with explicit wrapping
applied at the places the source performs integer casts. -/
structure Position where
  x : Int
  y : Int
  z : Int
deriving DecidableEq

/-- The modulo helper from positions.rs: `(a % b + b) % b`, where Rust `%`
on signed integers is truncated remainder (Int.tmod). -/
def modulo (a b : Int) : Int := (Int.tmod a b + b).tmod b

/-- The inner helper `unsigned_to_signed` of Position::from_database_key. -/
def unsigned_to_signed (i max_positive : Int) : Int :=
  if i < max_positive then i else i - 2 * max_positive

/-- Position::from_database_key (positions.rs).  Rust `/` on i64 is
truncated division (Int.tdiv); the `as i16` casts are modelled by toI16. -/
def Position.from_database_key (i : Int) : Position :=
  let x := toI16 (unsigned_to_signed (modulo i 4096) 2048)
  let i1 := Int.tdiv (i - x) 4096
  let y := toI16 (unsigned_to_signed (modulo i1 4096) 2048)
  let i2 := Int.tdiv (i1 - y) 4096
  let z := toI16 (unsigned_to_signed (modulo i2 4096) 2048)
  ⟨x, y, z⟩

/-- Position::as_database_key (positions.rs): the i16 components are
sign-extended to i64 (identity in this model) and combined. -/
def Position.as_database_key (p : Position) : Int :=
  p.x + p.y * 4096 + p.z * 16777216

/-- Position::from_node_index (positions.rs).  The source computes
`let i = node_index / 16; let y = i % 16; let i = node_index / 16;
let z = i % 16;` — the second binding of i repeats `node_index / 16`
instead of dividing again, which this embedding reproduces verbatim. -/
def Position.from_node_index (node_index : Nat) : Position :=
  let x := node_index % 16
  let i := node_index / 16
  let y := i % 16
  let i := node_index / 16
  let z := i % 16
  ⟨(x : Int), (y : Int), (z : Int)⟩

/-- Position::as_node_index (positions.rs): `x as u16 + 16 * y as u16 +
256 * z as u16` evaluated in wrapping u16 arithmetic, which equals the
integer expression reduced modulo 65536. -/
def Position.as_node_index (p : Position) : Nat :=
  (toU16 p.x + 16 * toU16 p.y + 256 * toU16 p.z) % 65536

/-- Position::mapblock_at (positions.rs): floor division of every
component by MAPBLOCK_LENGTH (num_integer::div_floor is Int.fdiv). -/
def Position.mapblock_at (p : Position) : Position :=
  ⟨Int.fdiv p.x 16, Int.fdiv p.y 16, Int.fdiv p.z 16⟩

/-- Position::split_at_block (positions.rs): mapblock position plus the
relative position `*self - blockpos * MAPBLOCK_LENGTH`. -/
def Position.split_at_block (p : Position) : Position × Position :=
  let blockpos := p.mapblock_at
  (blockpos, ⟨p.x - blockpos.x * 16, p.y - blockpos.y * 16, p.z - blockpos.z * 16⟩)

/- ## Map block codec: byte-stream primitives (map_block.rs helpers) -/

/-- Byte streams. A byte is a Nat below 256 wherever it was produced by the
source's writers; readers consume whatever they are handed. -/
abbrev Bytes := List Nat

/-- The read_u8 helper of map_block.rs: one byte, or an IO error (none). -/
def read_u8 : Bytes → Option (Nat × Bytes)
  | [] => none
  | b :: rest => some (b, rest)

/-- The read_u16_be helper of map_block.rs. -/
def read_u16_be : Bytes → Option (Nat × Bytes)
  | b0 :: b1 :: rest => some (256 * b0 + b1, rest)
  | _ => none

/-- The read_u32_be helper of map_block.rs. -/
def read_u32_be : Bytes → Option (Nat × Bytes)
  | b0 :: b1 :: b2 :: b3 :: rest =>
    some (16777216 * b0 + 65536 * b1 + 256 * b2 + b3, rest)
  | _ => none

/-- The read_i32_be helper of map_block.rs: i32::from_be_bytes, the two's
complement reading of four big-endian bytes. -/
def read_i32_be (data : Bytes) : Option (Int × Bytes) :=
  (read_u32_be data).map (fun vr =>
    (if vr.1 < 2147483648 then (vr.1 : Int) else (vr.1 : Int) - 4294967296, vr.2))

/-- Read_exact into a buffer of n bytes; a short read is an error. -/
def read_exact (n : Nat) (data : Bytes) : Option (Bytes × Bytes) :=
  if n ≤ data.length then some (data.take n, data.drop n) else none

/-- Big-endian bytes of a u16 value (u16::to_be_bytes). -/
def u16_be_bytes (n : Nat) : Bytes := [n / 256 % 256, n % 256]

/-- Big-endian bytes of a u32 value (u32::to_be_bytes). -/
def u32_be_bytes (n : Nat) : Bytes :=
  [n / 16777216 % 256, n / 65536 % 256, n / 256 % 256, n % 256]

/-- Big-endian bytes of an i32 value (i32::to_be_bytes): two's complement. -/
def i32_be_bytes (i : Int) : Bytes := u32_be_bytes (i % 4294967296).toNat

/-- Association-list lookup, modelling HashMap::get / presence of a key. -/
def assocLookup {α β : Type} [DecidableEq α] : List (α × β) → α → Option β
  | [], _ => none
  | (k, v) :: rest, key => if k = key then some v else assocLookup rest key

/-- Association-list update of the value stored at a present key. -/
def assocUpdate {α β : Type} [DecidableEq α] (l : List (α × β)) (key : α) (v : β) :
    List (α × β) :=
  l.map (fun kv => if kv.1 = key then (key, v) else kv)

/- ## Map block data model (map_block.rs) -/

/-- The physical composition of the world at a voxel (struct Node). -/
structure Node where
  param0 : Bytes
  param1 : Nat
  param2 : Nat
deriving DecidableEq

/-- A single node metadata variable (struct NodeVar). -/
structure NodeVar where
  key : Bytes
  value : Bytes
  is_private : Bool
deriving DecidableEq

/-- Metadata of a node (struct NodeMetadata). -/
structure NodeMetadata where
  position : Position
  vars : List NodeVar
  inventory : Bytes
deriving DecidableEq

/-- Objects in the world that are not nodes (struct StaticObject). -/
structure StaticObject where
  type_id : Nat
  x : Int
  y : Int
  z : Int
  data : Bytes
deriving DecidableEq

/-- A running node timer (struct NodeTimer). -/
structure NodeTimer where
  position : Position
  timeout : Int
  elapsed : Int
deriving DecidableEq

/-- Maps mapblock-local content IDs to content types.  The source HashMap is
modelled as an association list with unique keys; the writer iterates it in
list order. -/
abbrev NameIdMappings := List (Nat × Bytes)

/-- A chunk of voxels; the data unit saved in a backend (struct MapBlock).
The three fixed [u16; 4096] / [u8; 4096] arrays are lists whose length is
4096 for every block the source can construct. -/
structure MapBlock where
  map_format_version : Nat
  flags : Nat
  lighting_complete : Nat
  timestamp : Nat
  name_id_mappings : NameIdMappings
  content_width : Nat
  params_width : Nat
  param0 : List Nat
  param1 : List Nat
  param2 : List Nat
  node_metadata : List NodeMetadata
  static_objects : List StaticObject
  node_timers : List NodeTimer
deriving DecidableEq

/- ## Map block codec: readers (map_block.rs) -/

/-- Loop of read_param0: 4096 big-endian u16 values. -/
def read_u16s : Nat → Bytes → Option (List Nat × Bytes)
  | 0, data => some ([], data)
  | n + 1, data => do
    let (v, data) ← read_u16_be data
    let (vs, data) ← read_u16s n data
    return (v :: vs, data)

/-- The read_param0 helper of map_block.rs. -/
def read_param0 (data : Bytes) : Option (List Nat × Bytes) :=
  read_u16s MAPBLOCK_SIZE data

/-- The read_nodeparams helper of map_block.rs: 4096 raw bytes. -/
def read_nodeparams (data : Bytes) : Option (Bytes × Bytes) :=
  read_exact MAPBLOCK_SIZE data

/-- Entry loop of read_name_id_mappings; HashMap::insert returning a
previous value for the id makes the blob malformed. -/
def read_mappings_loop : Nat → NameIdMappings → Bytes → Option (NameIdMappings × Bytes)
  | 0, acc, data => some (acc, data)
  | n + 1, acc, data => do
    let (id, data) ← read_u16_be data
    let (len, data) ← read_u16_be data
    let (name, data) ← read_exact len data
    if (assocLookup acc id).isSome then none
    else read_mappings_loop n (acc ++ [(id, name)]) data

/-- The read_name_id_mappings helper of map_block.rs. -/
def read_name_id_mappings (data : Bytes) : Option (NameIdMappings × Bytes) := do
  let (v, data) ← read_u8 data
  if v ≠ 0 then none
  else do
    let (num, data) ← read_u16_be data
    read_mappings_loop num [] data

/-- The bytes of the line "EndInventory\n". -/
def endInventory : Bytes := [69, 110, 100, 73, 110, 118, 101, 110, 116, 111, 114, 121, 10]

/-- Byte loop of read_inventory: accumulate lines until one equals
"EndInventory\n" (inclusive); end of data first is an error. -/
def read_inventory_go (result line : Bytes) : Bytes → Option (Bytes × Bytes)
  | [] => none
  | byte :: rest =>
    let line2 := line ++ [byte]
    if byte = 10 then
      let result2 := result ++ line2
      if line2 = endInventory then some (result2, rest)
      else read_inventory_go result2 [] rest
    else read_inventory_go result line2 rest

/-- The read_inventory helper of map_block.rs. -/
def read_inventory (data : Bytes) : Option (Bytes × Bytes) :=
  read_inventory_go [] [] data

/-- Variable loop of read_node_metadata: key, value, is-private byte
(which must be 0 or 1). -/
def read_vars_loop : Nat → List NodeVar → Bytes → Option (List NodeVar × Bytes)
  | 0, acc, data => some (acc, data)
  | n + 1, acc, data => do
    let (klen, data) ← read_u16_be data
    let (key, data) ← read_exact klen data
    let (vlen, data) ← read_u32_be data
    let (value, data) ← read_exact vlen data
    let (is_priv, data) ← read_u8 data
    if is_priv > 1 then none
    else read_vars_loop n (acc ++ [⟨key, value, is_priv = 1⟩]) data

/-- One record of read_node_metadata: node index, variable count,
variables, raw inventory. -/
def read_metadatum (data : Bytes) : Option (NodeMetadata × Bytes) := do
  let (idx, data) ← read_u16_be data
  let (var_count, data) ← read_u32_be data
  let (vars, data) ← read_vars_loop var_count [] data
  let (inv, data) ← read_inventory data
  return (⟨Position.from_node_index idx, vars, inv⟩, data)

/-- Record loop of read_node_metadata.  The source builds each metadatum and
then drops it: the result vector is created with Vec::with_capacity, is not
mutable, and nothing is ever pushed onto it, so the loop only advances the
stream. -/
def read_metadata_records : Nat → Bytes → Option Bytes
  | 0, data => some data
  | n + 1, data => do
    let (_metadatum, data) ← read_metadatum data
    read_metadata_records n data

/-- The read_node_metadata helper of map_block.rs: version byte 0 means no
metadata, version 2 parses records (and, per the source, returns the empty
vector regardless), anything else is unsupported. -/
def read_node_metadata (data : Bytes) : Option (List NodeMetadata × Bytes) := do
  let (metadata_version, data) ← read_u8 data
  if metadata_version = 0 then return ([], data)
  else if metadata_version ≠ 2 then none
  else do
    let (metadata_count, data) ← read_u16_be data
    let metadata : List NodeMetadata := []
    let data2 ← read_metadata_records metadata_count data
    return (metadata, data2)

/-- The read_object_pos helper of map_block.rs: three big-endian i32. -/
def read_object_pos (data : Bytes) : Option ((Int × Int × Int) × Bytes) := do
  let (x, data) ← read_i32_be data
  let (y, data) ← read_i32_be data
  let (z, data) ← read_i32_be data
  return ((x, y, z), data)

/-- Object loop of read_static_objects. -/
def read_objects_loop : Nat → List StaticObject → Bytes → Option (List StaticObject × Bytes)
  | 0, acc, data => some (acc, data)
  | n + 1, acc, data => do
    let (type_id, data) ← read_u8 data
    let (xyz, data) ← read_object_pos data
    let (data_size, data) ← read_u16_be data
    let (payload, data) ← read_exact data_size data
    read_objects_loop n (acc ++ [⟨type_id, xyz.1, xyz.2.1, xyz.2.2, payload⟩]) data

/-- The read_static_objects helper of map_block.rs: version byte must be 0. -/
def read_static_objects (data : Bytes) : Option (List StaticObject × Bytes) := do
  let (version, data) ← read_u8 data
  if version ≠ 0 then none
  else do
    let (count, data) ← read_u16_be data
    read_objects_loop count [] data

/-- Timer loop of read_timers. -/
def read_timers_loop : Nat → List NodeTimer → Bytes → Option (List NodeTimer × Bytes)
  | 0, acc, data => some (acc, data)
  | n + 1, acc, data => do
    let (idx, data) ← read_u16_be data
    let (t, data) ← read_i32_be data
    let (e, data) ← read_i32_be data
    read_timers_loop n (acc ++ [⟨Position.from_node_index idx, t, e⟩]) data

/-- The read_timers helper of map_block.rs: the per-timer record size byte
must be 10. -/
def read_timers (data : Bytes) : Option (List NodeTimer × Bytes) := do
  let (timer_size, data) ← read_u8 data
  if timer_size ≠ 10 then none
  else do
    let (count, data) ← read_u16_be data
    read_timers_loop count [] data

/-- MapBlock::from_data.  The version byte must be 29; the zstd
decompression of the remaining bytes is modelled as the identity, after
which the payload fields are read in strict order.  Trailing bytes are
ignored, as in the source. -/
def MapBlock.from_data (data : Bytes) : Option MapBlock := do
  let (map_format_version, data) ← read_u8 data
  if map_format_version ≠ 29 then none
  else do
    let (flags, data) ← read_u8 data
    let (lighting_complete, data) ← read_u16_be data
    let (timestamp, data) ← read_u32_be data
    let (name_id_mappings, data) ← read_name_id_mappings data
    let (content_width, data) ← read_u8 data
    if content_width ≠ 2 then none
    else do
      let (params_width, data) ← read_u8 data
      if params_width ≠ 2 then none
      else do
        let (param0, data) ← read_param0 data
        let (param1, data) ← read_nodeparams data
        let (param2, data) ← read_nodeparams data
        let (node_metadata, data) ← read_node_metadata data
        let (static_objects, data) ← read_static_objects data
        let (node_timers, _rest) ← read_timers data
        return ⟨map_format_version, flags, lighting_complete, timestamp,
                name_id_mappings, content_width, params_width,
                param0, param1, param2, node_metadata, static_objects, node_timers⟩

/- ## Map block codec: writers (map_block.rs) -/

/-- The write_name_id_mappings helper of map_block.rs: version byte 0, u16
count (the usize length cast to u16), then id, name length, name bytes per
entry, in table iteration order. -/
def write_name_id_mappings (mappings : NameIdMappings) : Bytes :=
  [0] ++ u16_be_bytes (lenU16 mappings.length) ++
    (mappings.map (fun kv =>
      u16_be_bytes kv.1 ++ u16_be_bytes (lenU16 kv.2.length) ++ kv.2)).flatten

/-- The write_node_metadata helper of map_block.rs: [0] when empty,
otherwise version byte 2, u16 count, then per record the position index and
the variables followed by the raw inventory bytes.  The source writes no
per-record u32 variable count, although read_node_metadata expects one;
this embedding reproduces that. -/
def write_node_metadata (data : List NodeMetadata) : Bytes :=
  if data = [] then [0]
  else [2] ++ u16_be_bytes (lenU16 data.length) ++
    (data.map (fun md =>
      u16_be_bytes md.position.as_node_index ++
        (md.vars.map (fun var =>
          u16_be_bytes (lenU16 var.key.length) ++ var.key ++
            u32_be_bytes (lenU32 var.value.length) ++ var.value ++
            [if var.is_private then 1 else 0])).flatten ++
        md.inventory)).flatten

/-- The write_static_objects helper of map_block.rs: version byte 0, u16
count, then per object the three i32 coordinates, the payload length and
the payload.  The source writes no type_id byte, although
read_static_objects expects one; this embedding reproduces that. -/
def write_static_objects (data : List StaticObject) : Bytes :=
  [0] ++ u16_be_bytes (lenU16 data.length) ++
    (data.map (fun obj =>
      i32_be_bytes obj.x ++ i32_be_bytes obj.y ++ i32_be_bytes obj.z ++
        u16_be_bytes (lenU16 obj.data.length) ++ obj.data)).flatten

/-- The write_node_timers helper of map_block.rs: record size byte 10, u16
count, then position index, timeout and elapsed per timer. -/
def write_node_timers (data : List NodeTimer) : Bytes :=
  [10] ++ u16_be_bytes (lenU16 data.length) ++
    (data.map (fun t =>
      u16_be_bytes t.position.as_node_index ++
        i32_be_bytes t.timeout ++ i32_be_bytes t.elapsed)).flatten

/-- MapBlock::to_binary.  The source seeds the zstd encoder output with the
byte 29 and compresses the payload after it; compression is modelled as the
identity on the payload bytes. -/
def MapBlock.to_binary (b : MapBlock) : Bytes :=
  [29] ++ [b.flags] ++ u16_be_bytes b.lighting_complete ++
    u32_be_bytes b.timestamp ++ write_name_id_mappings b.name_id_mappings ++
    [2] ++ [2] ++ (b.param0.map u16_be_bytes).flatten ++ b.param1 ++ b.param2 ++
    write_node_metadata b.node_metadata ++
    write_static_objects b.static_objects ++ write_node_timers b.node_timers

/- ## Map block operations (map_block.rs, impl MapBlock) -/

/-- MapBlock::unloaded: a block of only CONTENT_IGNORE nodes, representing
a block not yet generated by the world generator. -/
def MapBlock.unloaded : MapBlock :=
  ⟨29, 0, 0, 4294967295, [(0, CONTENT_IGNORE)], 2, 2,
   List.replicate MAPBLOCK_SIZE 0, List.replicate MAPBLOCK_SIZE 0,
   List.replicate MAPBLOCK_SIZE 0, [], [], []⟩

/-- MapBlock::content_from_id: table lookup with CONTENT_UNKNOWN default. -/
def MapBlock.content_from_id (b : MapBlock) (content_id : Nat) : Bytes :=
  (assocLookup b.name_id_mappings content_id).getD CONTENT_UNKNOWN

/-- MapBlock::get_node_at: index the three arrays at
as_node_index % MAPBLOCK_SIZE and resolve the content string. -/
def MapBlock.get_node_at (b : MapBlock) (relative_node_pos : Position) : Node :=
  let index := relative_node_pos.as_node_index % MAPBLOCK_SIZE
  ⟨b.content_from_id (b.param0.getD index 0),
   b.param1.getD index 0, b.param2.getD index 0⟩

/-- Value scan of MapBlock::get_content_id over the table entries. -/
def assocFindKey : NameIdMappings → Bytes → Option Nat
  | [], _ => none
  | (k, v) :: rest, content => if v = content then some k else assocFindKey rest content

/-- MapBlock::get_content_id: the id of a content name, if present. -/
def MapBlock.get_content_id (b : MapBlock) (content : Bytes) : Option Nat :=
  assocFindKey b.name_id_mappings content

/-- Id scan of MapBlock::add_content: Rust iterates the exclusive range
u16::MIN..u16::MAX, that is the 65535 ids 0,...,65534; the second argument
counts the ids that remain to be tried. -/
def scanFreeId (mappings : NameIdMappings) : Nat → Nat → Option Nat
  | _, 0 => none
  | id, n + 1 =>
    if (assocLookup mappings id).isSome then scanFreeId mappings (id + 1) n
    else some id

/-- MapBlock::add_content: insert the content at the first vacant id found
by the scan; the source panics when every scanned id is occupied, which is
modelled as none. -/
def MapBlock.add_content (b : MapBlock) (content : Bytes) : Option (Nat × MapBlock) :=
  (scanFreeId b.name_id_mappings 0 65535).map
    (fun id => (id, { b with name_id_mappings := b.name_id_mappings ++ [(id, content)] }))

/-- MapBlock::get_or_create_content_id. -/
def MapBlock.get_or_create_content_id (b : MapBlock) (content : Bytes) :
    Option (Nat × MapBlock) :=
  match b.get_content_id content with
  | some id => some (id, b)
  | none => b.add_content content

/-- MapBlock::set_content: in-place update of param0 at the node index. -/
def MapBlock.set_content (b : MapBlock) (relative_node_pos : Position)
    (content_id : Nat) : MapBlock :=
  { b with param0 := b.param0.set (relative_node_pos.as_node_index % MAPBLOCK_SIZE) content_id }

/-- MapBlock::set_param1: in-place update of param1 at the node index. -/
def MapBlock.set_param1 (b : MapBlock) (relative_node_pos : Position)
    (param1 : Nat) : MapBlock :=
  { b with param1 := b.param1.set (relative_node_pos.as_node_index % MAPBLOCK_SIZE) param1 }

/-- MapBlock::set_param2: in-place update of param2 at the node index. -/
def MapBlock.set_param2 (b : MapBlock) (relative_node_pos : Position)
    (param2 : Nat) : MapBlock :=
  { b with param2 := b.param2.set (relative_node_pos.as_node_index % MAPBLOCK_SIZE) param2 }

/- ## Storage collaborator (map_data.rs) -/

/-- Error type of the map data layer (map_data.rs, enum MapDataError); the
backend-specific payloads are opaque and modelled as Nat codes. -/
inductive MapDataError where
  | SqlError (code : Nat)
  | RedisError (code : Nat)
  | MapBlockError (code : Nat)
  | MapBlockNonexistent (pos : Position)
  | IoError (code : Nat)
deriving DecidableEq

/-- The storage collaborator (map_data.rs, enum MapData).  The concrete
backends perform external I/O and are modelled by their interface contract:
which bytes the backend yields for each block position (get_block_data) and
whether a store of bytes at a position succeeds (set_mapblock_data). -/
structure MapData where
  get_block_data : Position → Except MapDataError Bytes
  set_mapblock_data : Position → Bytes → Except MapDataError Unit

/-- MapData::get_mapblock: fetch the raw bytes and decode them; a decode
failure surfaces as a MapBlockError. -/
def MapData.get_mapblock (m : MapData) (pos : Position) : Except MapDataError MapBlock :=
  match m.get_block_data pos with
  | .error e => .error e
  | .ok bytes =>
    match MapBlock.from_data bytes with
    | some mb => .ok mb
    | none => .error (.MapBlockError 0)

/-- MapData::set_mapblock: encode the block and store the bytes. -/
def MapData.set_mapblock (m : MapData) (pos : Position) (block : MapBlock) :
    Except MapDataError Unit :=
  m.set_mapblock_data pos block.to_binary

/- ## VoxelManip cache (voxel_manip.rs) -/

/-- A cache entry: one map block plus its dirty flag (struct CacheEntry). -/
structure CacheEntry where
  mapblock : MapBlock
  tainted : Bool

/-- The in-memory write-back cache (struct VoxelManip).  The HashMap from
block positions to cache entries is modelled as an association list with
unique keys. -/
structure VoxelManip where
  map : MapData
  mapblock_cache : List (Position × CacheEntry)

/-- VoxelManip::get_entry: on a cache hit return the entry; on a miss ask
the backend, substituting the canonical unloaded block when the backend
reports MapBlockNonexistent, and insert a clean entry.  Any other backend
failure propagates. -/
def VoxelManip.get_entry (vm : VoxelManip) (mapblock_pos : Position) :
    Except MapDataError (VoxelManip × CacheEntry) :=
  match assocLookup vm.mapblock_cache mapblock_pos with
  | some e => .ok (vm, e)
  | none =>
    match
      (match vm.map.get_mapblock mapblock_pos with
       | .ok mapblock => .ok mapblock
       | .error (.MapBlockNonexistent _) => .ok MapBlock.unloaded
       | .error e => .error e : Except MapDataError MapBlock) with
    | .error e => .error e
    | .ok mapblock =>
      .ok ({ vm with mapblock_cache := (mapblock_pos, ⟨mapblock, false⟩) :: vm.mapblock_cache },
           ⟨mapblock, false⟩)

/-- VoxelManip::get_mapblock. -/
def VoxelManip.get_mapblock (vm : VoxelManip) (mapblock_pos : Position) :
    Except MapDataError (VoxelManip × MapBlock) :=
  (vm.get_entry mapblock_pos).map (fun r => (r.1, r.2.mapblock))

/-- VoxelManip::get_node. -/
def VoxelManip.get_node (vm : VoxelManip) (node_pos : Position) :
    Except MapDataError (VoxelManip × Node) :=
  let bn := node_pos.split_at_block
  (vm.get_mapblock bn.1).map (fun r => (r.1, r.2.get_node_at bn.2))

/-- VoxelManip::modify_mapblock: run an operation on the cached block at
blockpos and mark the entry tainted. -/
def VoxelManip.modify_mapblock (vm : VoxelManip) (blockpos : Position)
    (op : MapBlock → MapBlock) : Except MapDataError VoxelManip :=
  match vm.get_entry blockpos with
  | .error e => .error e
  | .ok (vm2, entry) =>
    .ok { vm2 with
           mapblock_cache := assocUpdate vm2.mapblock_cache blockpos ⟨op entry.mapblock, true⟩ }

/-- VoxelManip::modify_mapblock for operations that can die: a none from
the operation models a Rust panic (content-id exhaustion) aborting the
call. -/
def VoxelManip.modify_mapblock_p (vm : VoxelManip) (blockpos : Position)
    (op : MapBlock → Option MapBlock) : Option (Except MapDataError VoxelManip) :=
  match vm.get_entry blockpos with
  | .error e => some (.error e)
  | .ok (vm2, entry) =>
    (op entry.mapblock).map (fun mb =>
      .ok { vm2 with mapblock_cache := assocUpdate vm2.mapblock_cache blockpos ⟨mb, true⟩ })

/-- VoxelManip::set_node: intern the node's content string and set all
three per-node fields; the outer Option models the content-id panic. -/
def VoxelManip.set_node (vm : VoxelManip) (node_pos : Position) (node : Node) :
    Option (Except MapDataError VoxelManip) :=
  let bn := node_pos.split_at_block
  vm.modify_mapblock_p bn.1 (fun mapblock =>
    (mapblock.get_or_create_content_id node.param0).map (fun r =>
      (((r.2.set_content bn.2 r.1).set_param1 bn.2 node.param1).set_param2 bn.2 node.param2)))

/-- VoxelManip::set_content. -/
def VoxelManip.set_content (vm : VoxelManip) (node_pos : Position) (content : Bytes) :
    Option (Except MapDataError VoxelManip) :=
  let bn := node_pos.split_at_block
  vm.modify_mapblock_p bn.1 (fun mapblock =>
    (mapblock.get_or_create_content_id content).map (fun r => r.2.set_content bn.2 r.1))

/-- VoxelManip::set_param1. -/
def VoxelManip.set_param1 (vm : VoxelManip) (node_pos : Position) (param1 : Nat) :
    Except MapDataError VoxelManip :=
  let bn := node_pos.split_at_block
  vm.modify_mapblock bn.1 (fun mapblock => mapblock.set_param1 bn.2 param1)

/-- VoxelManip::set_param2. -/
def VoxelManip.set_param2 (vm : VoxelManip) (node_pos : Position) (param2 : Nat) :
    Except MapDataError VoxelManip :=
  let bn := node_pos.split_at_block
  vm.modify_mapblock bn.1 (fun mapblock => mapblock.set_param2 bn.2 param2)

/-- VoxelManip::is_in_cache: whether the block owning this node position is
cached. -/
def VoxelManip.is_in_cache (vm : VoxelManip) (node_pos : Position) : Bool :=
  (assocLookup vm.mapblock_cache node_pos.mapblock_at).isSome

/-- Entry iteration of VoxelManip::commit: write every tainted entry back
through the collaborator and clear its flag; the first store failure
aborts the iteration. -/
def commitEntries (m : MapData) :
    List (Position × CacheEntry) → Except MapDataError (List (Position × CacheEntry))
  | [] => .ok []
  | (pos, e) :: rest =>
    if e.tainted then
      match m.set_mapblock pos e.mapblock with
      | .error err => .error err
      | .ok _ => (commitEntries m rest).map (fun r => (pos, ⟨e.mapblock, false⟩) :: r)
    else (commitEntries m rest).map (fun r => (pos, e) :: r)

/-- VoxelManip::commit. -/
def VoxelManip.commit (vm : VoxelManip) : Except MapDataError VoxelManip :=
  (commitEntries vm.map vm.mapblock_cache).map
    (fun cache => { vm with mapblock_cache := cache })

/- ## Concrete inputs used by the counterexample and witness theorems -/

/-- A metadata record whose single variable has empty key and value; its
inventory is exactly the terminator line. -/
def demoMetadatum : NodeMetadata := ⟨⟨0, 0, 0⟩, [⟨[], [], false⟩], endInventory⟩

/-- An otherwise-unloaded block carrying one node metadata record. -/
def demoMetaBlock : MapBlock :=
  { MapBlock.unloaded with node_metadata := [demoMetadatum] }

/-- The byte stream of a version-2 node metadata section declaring one
record: count 1, node index 0, variable count 0, inventory terminator. -/
def demoMetaStream : Bytes := [2, 0, 1, 0, 0, 0, 0, 0, 0] ++ endInventory

/-- A content table occupying the 65535 ids 0,...,65534. -/
def fullTable : NameIdMappings := (List.range 65535).map (fun i => (i, []))

/-- An otherwise-unloaded block whose content table occupies every id the
add_content scan tries. -/
def fullBlock : MapBlock :=
  ⟨29, 0, 0, 4294967295, fullTable, 2, 2,
   List.replicate MAPBLOCK_SIZE 0, List.replicate MAPBLOCK_SIZE 0,
   List.replicate MAPBLOCK_SIZE 0, [], [], []⟩

/-- A storage collaborator reporting every block nonexistent and accepting
every store. -/
def demoMap : MapData :=
  ⟨fun pos => .error (.MapBlockNonexistent pos), fun _ _ => .ok ()⟩

/-- A fresh VoxelManip over demoMap. -/
def demoVM : VoxelManip := ⟨demoMap, []⟩

/-- The VoxelManip state after setting param1 of the origin node on a
fresh demoVM: a single tainted cache entry over the unloaded block. -/
def demoVM1 : VoxelManip :=
  ⟨demoMap, [(⟨0, 0, 0⟩, ⟨MapBlock.unloaded.set_param1 ⟨0, 0, 0⟩ 7, true⟩)]⟩

/- Theorem section begins below. -/

theorem tmod_lower_bound (a : Int) : -4096 < a.tmod 4096 := by
  cases a with
  | ofNat m =>
    have := Int.tmod_nonneg (a := Int.ofNat m) 4096 (Int.ofNat_nonneg m)
    omega
  | negSucc m =>
    have h : Int.tmod (Int.negSucc m) 4096 = -(((m + 1) % 4096 : Nat) : Int) := by
      show Int.tmod (Int.negSucc m) (Int.ofNat 4096) = _
      rw [Int.tmod.eq_3]
      norm_num [Nat.succ_eq_add_one]
    have hb : ((m + 1) % 4096 : Nat) < 4096 := Nat.mod_lt _ (by norm_num)
    omega

theorem modulo_emod (a : Int) : modulo a 4096 = a % 4096 := by
  unfold modulo
  have hub : a.tmod 4096 < 4096 := Int.tmod_lt_of_pos a (by norm_num)
  have hlb : -4096 < a.tmod 4096 := tmod_lower_bound a
  rw [Int.tmod_eq_emod (by omega) (by norm_num)]
  have hd : a.tmod 4096 = a - 4096 * a.tdiv 4096 := Int.tmod_def a 4096
  omega

/-- One digit-extraction step of Position::from_database_key: on an input
that is digit plus 4096 times a rest, the code recovers exactly the digit
and the exact quotient. -/
theorem decode_digit (j d r : Int) (hd1 : -2048 ≤ d) (hd2 : d ≤ 2047)
    (hj : j = d + 4096 * r) :
    toI16 (unsigned_to_signed (modulo j 4096) 2048) = d ∧ Int.tdiv (j - d) 4096 = r := by
  have hmod : modulo j 4096 = j % 4096 := modulo_emod j
  have hx : toI16 (unsigned_to_signed (modulo j 4096) 2048) = d := by
    rw [hmod]
    unfold unsigned_to_signed toI16
    have hjd : j % 4096 = d % 4096 := by omega
    split <;> omega
  refine ⟨hx, ?_⟩
  have : j - d = 4096 * r := by omega
  rw [this]
  exact Int.mul_tdiv_cancel_left r (by norm_num)

/-- C3: the claim asserts as_node_index inverts from_node_index on all
indices 0..4095 with z extracted from bits 8-11.  In the source the z
component is computed from node_index / 16 again (a repeated binding), so
it equals y instead of bits 8-11: index 256 decodes to the origin and the
round trip returns 0, refuting the claim. -/
theorem C3_node_index_roundtrip_fails_at_256 :
    Position.from_node_index 256 = ⟨0, 0, 0⟩ ∧
      Position.from_node_index 256 = Position.from_node_index 0 ∧
      Position.as_node_index (Position.from_node_index 256) = 0 := by
  refine ⟨?_, ?_, ?_⟩ <;> decide

/-- C5 counterexample: the claim asserts the canonical unloaded block has
timestamp 0; the source sets timestamp to 0xffffffff. -/
theorem C5_unloaded_timestamp_not_zero :
    MapBlock.unloaded.timestamp = 4294967295 ∧ MapBlock.unloaded.timestamp ≠ 0 := by
  exact ⟨rfl, by decide⟩

/-- C5 (amended): MapBlock::unloaded maps content id 0 to "ignore" and has
flags 0, lighting_complete 0, zeroed param arrays and empty metadata,
static object and timer sequences — but timestamp 0xffffffff, not 0. -/
theorem C5_unloaded_characterization :
    MapBlock.unloaded.flags = 0 ∧ MapBlock.unloaded.lighting_complete = 0 ∧
      MapBlock.unloaded.timestamp = 4294967295 ∧
      MapBlock.unloaded.name_id_mappings = [(0, CONTENT_IGNORE)] ∧
      MapBlock.unloaded.param0 = List.replicate 4096 0 ∧
      MapBlock.unloaded.param1 = List.replicate 4096 0 ∧
      MapBlock.unloaded.param2 = List.replicate 4096 0 ∧
      MapBlock.unloaded.node_metadata = [] ∧
      MapBlock.unloaded.static_objects = [] ∧
      MapBlock.unloaded.node_timers = [] :=
  ⟨rfl, rfl, rfl, rfl, rfl, rfl, rfl, rfl, rfl, rfl⟩

/-- C6: for every i64 key in the valid packed range — a sum of three
signed 12-bit digits placed at bits 0-11, 12-23 and 24-35 — decoding the
key to a block position and re-encoding it reproduces the key. -/
theorem C6_database_key_roundtrip (i a b c : Int)
    (ha1 : -2048 ≤ a) (ha2 : a ≤ 2047) (hb1 : -2048 ≤ b) (hb2 : b ≤ 2047)
    (hc1 : -2048 ≤ c) (hc2 : c ≤ 2047)
    (hi : i = a + 4096 * b + 16777216 * c) :
    Position.as_database_key (Position.from_database_key i) = i := by
  obtain ⟨hx, hdx⟩ := decode_digit i a (b + 4096 * c) ha1 ha2 (by omega)
  obtain ⟨hy, hdy⟩ := decode_digit (b + 4096 * c) b c hb1 hb2 (by ring)
  obtain ⟨hz, _⟩ := decode_digit c c 0 hc1 hc2 (by ring)
  simp only [Position.from_database_key]
  rw [hx, hdx, hy, hdy, hz]
  simp only [Position.as_database_key]
  omega

/-- Witness for C6 at the concrete key 134270984 = 8 + 4096·13 +
16777216·8, the value exercised by the repository's own unit test. -/
theorem C6_database_key_roundtrip_witness :
    Position.as_database_key (Position.from_database_key 134270984) = 134270984 :=
  C6_database_key_roundtrip 134270984 8 13 8 (by norm_num) (by norm_num)
    (by norm_num) (by norm_num) (by norm_num) (by norm_num) (by norm_num)

/-- C8: for every relative node position, in-range or not, the per-node
operations address the flat index x + 16y + 256z reduced modulo 4096 under
wrapping 16-bit arithmetic — out-of-range components wrap silently. -/
theorem C8_node_ops_wrap_mod_4096 (p : Position) (b : MapBlock) (v : Nat) :
    p.as_node_index % MAPBLOCK_SIZE = ((p.x + 16 * p.y + 256 * p.z) % 4096).toNat ∧
      b.get_node_at p =
        ⟨b.content_from_id (b.param0.getD ((p.x + 16 * p.y + 256 * p.z) % 4096).toNat 0),
         b.param1.getD ((p.x + 16 * p.y + 256 * p.z) % 4096).toNat 0,
         b.param2.getD ((p.x + 16 * p.y + 256 * p.z) % 4096).toNat 0⟩ ∧
      b.set_content p v =
        { b with param0 := b.param0.set ((p.x + 16 * p.y + 256 * p.z) % 4096).toNat v } ∧
      b.set_param1 p v =
        { b with param1 := b.param1.set ((p.x + 16 * p.y + 256 * p.z) % 4096).toNat v } ∧
      b.set_param2 p v =
        { b with param2 := b.param2.set ((p.x + 16 * p.y + 256 * p.z) % 4096).toNat v } := by
  have hidx : p.as_node_index % MAPBLOCK_SIZE = ((p.x + 16 * p.y + 256 * p.z) % 4096).toNat := by
    have hms : MAPBLOCK_SIZE = 4096 := rfl
    rw [hms]
    simp only [Position.as_node_index, toU16]
    omega
  refine ⟨hidx, ?_, ?_, ?_, ?_⟩ <;>
    simp only [MapBlock.get_node_at, MapBlock.set_content, MapBlock.set_param1,
      MapBlock.set_param2, hidx]

/-- C10: the first byte of to_binary is always 29, and the encoder never
consults the map_format_version field: changing it leaves the encoded
bytes unchanged. -/
theorem C10_version_byte_always_29 (b : MapBlock) (v : Nat) :
    b.to_binary.head? = some 29 ∧
      ({ b with map_format_version := v } : MapBlock).to_binary = b.to_binary :=
  ⟨rfl, rfl⟩

/-- C2: the claim says a version-2 metadata section decodes to exactly the
declared count of records with their parsed contents.  On a stream
declaring one well-formed record, the source parses the record (shown by
read_metadatum) and consumes the whole section, yet returns an empty
metadata sequence: the record vector is never pushed to. -/
theorem C2_metadata_records_dropped :
    read_node_metadata demoMetaStream = some ([], []) ∧
      (read_u16_be (demoMetaStream.drop 1)).map Prod.fst = some 1 ∧
      read_metadatum (demoMetaStream.drop 3) =
        some (⟨⟨0, 0, 0⟩, [], endInventory⟩, []) := by
  refine ⟨by rfl, by rfl, by rfl⟩

/-- C1: the round trip fails on a block whose only extra content is a
single node metadata record: the encoder writes no per-record variable
count while the decoder demands one, so decode(encode(b)) is not even a
successful decode, let alone a field-for-field reproduction. -/
/- Round-trip staging lemmas: each encoded section is consumed symbolically,
so no theorem below depends on kernel evaluation across the 4096-element
arrays. -/

theorem read_u16_be_bytes (v : Nat) (rest : Bytes) (h : v < 65536) :
    read_u16_be (u16_be_bytes v ++ rest) = some (v, rest) := by
  simp only [u16_be_bytes, List.cons_append, List.nil_append, read_u16_be]
  congr 2
  omega

theorem read_u32_be_bytes (v : Nat) (rest : Bytes) (h : v < 4294967296) :
    read_u32_be (u32_be_bytes v ++ rest) = some (v, rest) := by
  simp only [u32_be_bytes, List.cons_append, List.nil_append, read_u32_be]
  congr 2
  omega

theorem read_exact_append (l rest : Bytes) :
    read_exact l.length (l ++ rest) = some (l, rest) := by
  simp [read_exact, List.take_left, List.drop_left]

theorem bind_step {α β : Type} (a : α) (f : α → Option β) : (some a >>= f) = f a := rfl

theorem read_u16s_bytes (l : List Nat) (rest : Bytes) (hv : ∀ v ∈ l, v < 65536) :
    read_u16s l.length ((l.map u16_be_bytes).flatten ++ rest) = some (l, rest) := by
  induction l with
  | nil => rfl
  | cons v t ih =>
    have hv1 : v < 65536 := hv v (List.mem_cons_self v t)
    simp only [List.map_cons, List.flatten_cons, List.length_cons, List.append_assoc]
    rw [read_u16s, read_u16_be_bytes v _ hv1]
    rw [bind_step]
    dsimp only []
    rw [ih (fun w hw => hv w (List.mem_cons_of_mem v hw))]
    rfl

theorem read_u8_cons (x : Nat) (r : Bytes) : read_u8 (x :: r) = some (x, r) := rfl

/-- Composition of decode after encode, reduced through the header, content
table and the three param arrays: what remains is how the decoder reads
back the encoded metadata, static object and timer sections. -/
theorem roundtrip_reduces (b : MapBlock)
    (hm : ∀ rest, read_name_id_mappings (write_name_id_mappings b.name_id_mappings ++ rest) =
        some (b.name_id_mappings, rest))
    (hlight : b.lighting_complete < 65536) (hts : b.timestamp < 4294967296)
    (h0len : b.param0.length = 4096) (h0v : ∀ v ∈ b.param0, v < 65536)
    (h1len : b.param1.length = 4096) (h2len : b.param2.length = 4096) :
    MapBlock.from_data (MapBlock.to_binary b) =
      (do
        let (node_metadata, data) ← read_node_metadata
          (write_node_metadata b.node_metadata ++
            write_static_objects b.static_objects ++ write_node_timers b.node_timers)
        let (static_objects, data) ← read_static_objects data
        let (node_timers, _rest) ← read_timers data
        return ⟨29, b.flags, b.lighting_complete, b.timestamp, b.name_id_mappings,
                2, 2, b.param0, b.param1, b.param2,
                node_metadata, static_objects, node_timers⟩) := by
  unfold MapBlock.from_data MapBlock.to_binary
  simp only [List.append_assoc, List.cons_append, List.nil_append]
  rw [read_u8_cons, bind_step]
  dsimp only []
  rw [if_neg (by omega : ¬ (29 : Nat) ≠ 29)]
  rw [read_u8_cons, bind_step]
  dsimp only []
  rw [read_u16_be_bytes b.lighting_complete _ hlight, bind_step]
  dsimp only []
  rw [read_u32_be_bytes b.timestamp _ hts, bind_step]
  dsimp only []
  rw [hm _, bind_step]
  dsimp only []
  rw [read_u8_cons, bind_step]
  dsimp only []
  rw [if_neg (by omega : ¬ (2 : Nat) ≠ 2)]
  rw [read_u8_cons, bind_step]
  dsimp only []
  rw [if_neg (by omega : ¬ (2 : Nat) ≠ 2)]
  unfold read_param0
  rw [show MAPBLOCK_SIZE = b.param0.length by rw [h0len]; rfl]
  rw [read_u16s_bytes b.param0 _ h0v, bind_step]
  dsimp only []
  unfold read_nodeparams
  rw [show MAPBLOCK_SIZE = b.param1.length by rw [h1len]; rfl]
  rw [read_exact_append b.param1 _, bind_step]
  dsimp only []
  rw [show b.param1.length = b.param2.length by rw [h1len, h2len]]
  rw [read_exact_append b.param2 _, bind_step]

theorem read_exact_ignore (rest : Bytes) :
    read_exact 6 (CONTENT_IGNORE ++ rest) = some (CONTENT_IGNORE, rest) :=
  read_exact_append CONTENT_IGNORE rest

/-- The one-entry content table of the unloaded block round-trips through
its writer and reader, for any trailing stream. -/
theorem hm_demo (rest : Bytes) :
    read_name_id_mappings (write_name_id_mappings [(0, CONTENT_IGNORE)] ++ rest) =
      some ([(0, CONTENT_IGNORE)], rest) := by
  have hw : write_name_id_mappings [(0, CONTENT_IGNORE)] =
      [0, 0, 1, 0, 0, 0, 6] ++ CONTENT_IGNORE := rfl
  rw [hw]
  simp only [List.append_assoc, List.cons_append, List.nil_append]
  unfold read_name_id_mappings
  rw [read_u8_cons, bind_step]
  dsimp only []
  rw [if_neg (by omega : ¬ (0 : Nat) ≠ 0)]
  rw [show read_u16_be (0 :: 1 :: 0 :: 0 :: 0 :: 6 :: (CONTENT_IGNORE ++ rest)) =
    some (1, 0 :: 0 :: 0 :: 6 :: (CONTENT_IGNORE ++ rest)) from rfl, bind_step]
  dsimp only []
  rw [show (1 : Nat) = 0 + 1 from rfl, read_mappings_loop]
  rw [show read_u16_be (0 :: 0 :: 0 :: 6 :: (CONTENT_IGNORE ++ rest)) =
    some (0, 0 :: 6 :: (CONTENT_IGNORE ++ rest)) from rfl, bind_step]
  dsimp only []
  rw [show read_u16_be (0 :: 6 :: (CONTENT_IGNORE ++ rest)) =
    some (6, CONTENT_IGNORE ++ rest) from rfl, bind_step]
  dsimp only []
  rw [read_exact_ignore rest, bind_step]
  rfl

/-- C1: the claim asserts decode after encode succeeds and reproduces every
structurally valid block, granting only the static-object type-id
asymmetry.  It fails with no static objects at all: on a block whose only
extra content is one node metadata record, the encoder emits no per-record
u32 variable count while the decoder demands one, so the decoder misreads
the stream and decoding fails outright. -/
theorem C1_roundtrip_fails_on_metadata :
    MapBlock.from_data (MapBlock.to_binary demoMetaBlock) = none ∧
      demoMetaBlock.node_metadata = [demoMetadatum] := by
  refine ⟨?_, rfl⟩
  have hp0 : demoMetaBlock.param0 = List.replicate 4096 0 := rfl
  have hp1 : demoMetaBlock.param1 = List.replicate 4096 0 := rfl
  have hp2 : demoMetaBlock.param2 = List.replicate 4096 0 := rfl
  rw [roundtrip_reduces demoMetaBlock]
  · rfl
  · intro rest
    exact hm_demo rest
  · decide
  · decide
  · rw [hp0, List.length_replicate]
  · intro v hv
    rw [hp0] at hv
    have := List.eq_of_mem_replicate hv
    omega
  · rw [hp1, List.length_replicate]
  · rw [hp2, List.length_replicate]

/- Association-list and id-scan lemmas for the content-table claims. -/

theorem assocLookup_append {α β : Type} [DecidableEq α] (l1 l2 : List (α × β)) (k : α) :
    assocLookup (l1 ++ l2) k =
      (match assocLookup l1 k with
       | some v => some v
       | none => assocLookup l2 k) := by
  induction l1 with
  | nil => simp [assocLookup]
  | cons kv rest ih =>
    obtain ⟨k1, v1⟩ := kv
    by_cases h : k1 = k
    · simp [assocLookup, h]
    · simp [assocLookup, h, ih]

theorem assocLookup_range (n k : Nat) :
    assocLookup ((List.range n).map (fun i => (i, ([] : Bytes)))) k =
      if k < n then some [] else none := by
  induction n with
  | zero => simp [assocLookup]
  | succ n ih =>
    rw [List.range_succ, List.map_append, assocLookup_append, ih]
    by_cases h : k < n
    · simp [h, Nat.lt_succ_of_lt h]
    · by_cases h2 : n = k
      · subst h2
        simp [h, assocLookup, Nat.lt_succ_self]
      · have h3 : ¬ k < n + 1 := by omega
        simp [h, h2, h3, assocLookup]

theorem scanFreeId_none_iff (mappings : NameIdMappings) (n : Nat) :
    ∀ start, (scanFreeId mappings start n = none ↔
      ∀ j, start ≤ j → j < start + n → (assocLookup mappings j).isSome) := by
  induction n with
  | zero =>
    intro start
    constructor
    · intro _ j hj1 hj2
      omega
    · intro _
      rfl
  | succ n ih =>
    intro start
    rw [scanFreeId]
    by_cases h : (assocLookup mappings start).isSome
    · rw [if_pos h, ih (start + 1)]
      constructor
      · intro hall j hj1 hj2
        rcases Nat.eq_or_lt_of_le hj1 with he | hl
        · rw [← he]
          exact h
        · exact hall j hl (by omega)
      · intro hall j hj1 hj2
        exact hall j (by omega) (by omega)
    · rw [if_neg h]
      constructor
      · intro hsome
        cases hsome
      · intro hall
        exact absurd (hall start le_rfl (by omega)) h

theorem scanFreeId_some_spec (mappings : NameIdMappings) (n : Nat) :
    ∀ start id, scanFreeId mappings start n = some id →
      assocLookup mappings id = none ∧ start ≤ id ∧ id < start + n ∧
        ∀ j, start ≤ j → j < id → (assocLookup mappings j).isSome := by
  induction n with
  | zero =>
    intro start id h
    cases h
  | succ n ih =>
    intro start id h
    rw [scanFreeId] at h
    by_cases hocc : (assocLookup mappings start).isSome
    · rw [if_pos hocc] at h
      obtain ⟨h1, h2, h3, h4⟩ := ih (start + 1) id h
      refine ⟨h1, by omega, by omega, fun j hj1 hj2 => ?_⟩
      rcases Nat.eq_or_lt_of_le hj1 with he | hl
      · rw [← he]
        exact hocc
      · exact h4 j hl hj2
    · rw [if_neg hocc] at h
      cases h
      refine ⟨?_, le_rfl, by omega, fun j hj1 hj2 => absurd hj2 (by omega)⟩
      cases hv : assocLookup mappings start with
      | none => rfl
      | some v =>
        rw [hv] at hocc
        exact absurd rfl hocc

theorem assocLookup_isSome_mem {α β : Type} [DecidableEq α] (l : List (α × β)) (k : α)
    (h : (assocLookup l k).isSome) : k ∈ l.map Prod.fst := by
  induction l with
  | nil => simp [assocLookup] at h
  | cons kv rest ih =>
    obtain ⟨k1, v1⟩ := kv
    by_cases he : k1 = k
    · subst he
      simp
    · rw [assocLookup, if_neg he] at h
      simp [ih h]

theorem assocFindKey_none (l : NameIdMappings) (content : Bytes)
    (h : ∀ kv ∈ l, kv.2 ≠ content) : assocFindKey l content = none := by
  induction l with
  | nil => rfl
  | cons kv rest ih =>
    obtain ⟨k1, v1⟩ := kv
    rw [assocFindKey, if_neg (h (k1, v1) (List.mem_cons_self _ _))]
    exact ih (fun kv hm => h kv (List.mem_cons_of_mem _ hm))

/-- C4 counterexample: the claim says the allocation failure branch is
reached only when all 65536 ids are in use and that a table with fewer
than 65536 entries always allocates.  A table occupying exactly the ids
0..65534 has 65535 < 65536 entries and leaves id 65535 unused, yet the
scan — which tries only the 65535 ids below u16::MAX — fails. -/
theorem C4_counterexample_full_table :
    fullBlock.name_id_mappings.length = 65535 ∧
      fullBlock.name_id_mappings.length < 65536 ∧
      assocLookup fullBlock.name_id_mappings 65535 = none ∧
      fullBlock.get_or_create_content_id CONTENT_UNKNOWN = none := by
  have htab : fullBlock.name_id_mappings = fullTable := by simp only [fullBlock]
  have hlen : fullTable.length = 65535 := by
    rw [fullTable, List.length_map, List.length_range]
  have hlook : ∀ k, assocLookup fullTable k = if k < 65535 then some [] else none :=
    fun k => assocLookup_range 65535 k
  have hscan : scanFreeId fullTable 0 65535 = none := by
    rw [scanFreeId_none_iff]
    intro j hj1 hj2
    rw [hlook j, if_pos (by omega)]
    rfl
  have hfind : assocFindKey fullTable CONTENT_UNKNOWN = none := by
    refine assocFindKey_none fullTable CONTENT_UNKNOWN ?_
    intro kv hkv
    rw [fullTable] at hkv
    obtain ⟨i, _, rfl⟩ := List.mem_map.mp hkv
    simp [CONTENT_UNKNOWN]
  have h1 : fullBlock.get_content_id CONTENT_UNKNOWN = none := by
    unfold MapBlock.get_content_id
    rw [htab]
    exact hfind
  have h2 : fullBlock.add_content CONTENT_UNKNOWN = none := by
    unfold MapBlock.add_content
    rw [htab, hscan]
    rfl
  refine ⟨by rw [htab, hlen], by rw [htab, hlen]; omega, ?_, ?_⟩
  · rw [htab, hlook 65535]
    simp
  · unfold MapBlock.get_or_create_content_id
    rw [h1]
    dsimp only []
    exact h2

/-- C4 (amended): get_or_create_content_id on an absent content string
allocates the first unused id, scanning the 65535 ids 0..65534 (u16::MAX
is excluded by the scan), and appends the entry; under the precondition
that the table holds fewer than 65535 entries — not 65536 — allocation
always succeeds. -/
theorem C4_allocation_succeeds_below_65535 (b : MapBlock) (content : Bytes)
    (habsent : b.get_content_id content = none)
    (hsize : b.name_id_mappings.length < 65535) :
    ∃ id b2, b.get_or_create_content_id content = some (id, b2) ∧
      assocLookup b.name_id_mappings id = none ∧
      (∀ j, j < id → (assocLookup b.name_id_mappings j).isSome) ∧
      b2.name_id_mappings = b.name_id_mappings ++ [(id, content)] := by
  cases hscan : scanFreeId b.name_id_mappings 0 65535 with
  | none =>
    exfalso
    rw [scanFreeId_none_iff] at hscan
    have hsub : Finset.range 65535 ⊆ (b.name_id_mappings.map Prod.fst).toFinset := by
      intro k hk
      rw [List.mem_toFinset]
      exact assocLookup_isSome_mem _ _
        (hscan k (Nat.zero_le k) (by simpa using Finset.mem_range.mp hk))
    have h1 : (65535 : Nat) ≤ (b.name_id_mappings.map Prod.fst).toFinset.card := by
      have := Finset.card_le_card hsub
      simpa using this
    have h2 : (b.name_id_mappings.map Prod.fst).toFinset.card ≤ b.name_id_mappings.length := by
      calc (b.name_id_mappings.map Prod.fst).toFinset.card
          ≤ (b.name_id_mappings.map Prod.fst).length := List.toFinset_card_le _
        _ = b.name_id_mappings.length := List.length_map _ _
    omega
  | some id =>
    obtain ⟨h1, _, _, h4⟩ := scanFreeId_some_spec b.name_id_mappings 65535 0 id hscan
    refine ⟨id, { b with name_id_mappings := b.name_id_mappings ++ [(id, content)] },
      ?_, h1, fun j hj => h4 j (Nat.zero_le j) hj, rfl⟩
    unfold MapBlock.get_or_create_content_id
    rw [habsent]
    dsimp only []
    unfold MapBlock.add_content
    rw [hscan]
    rfl

/-- Witness for the amended C4 at the unloaded block, whose table holds the
single entry 0 ↦ "ignore": "unknown" is absent and allocation succeeds. -/
theorem C4_allocation_witness :
    ∃ id b2, MapBlock.unloaded.get_or_create_content_id CONTENT_UNKNOWN = some (id, b2) ∧
      assocLookup MapBlock.unloaded.name_id_mappings id = none ∧
      (∀ j, j < id → (assocLookup MapBlock.unloaded.name_id_mappings j).isSome) ∧
      b2.name_id_mappings = MapBlock.unloaded.name_id_mappings ++ [(id, CONTENT_UNKNOWN)] :=
  C4_allocation_succeeds_below_65535 MapBlock.unloaded CONTENT_UNKNOWN (by decide) (by decide)

/- Cache-layer lemmas for the fallback and dirty-tracking claims. -/

theorem unloaded_all_ignore (q : Position) :
    (MapBlock.unloaded.get_node_at q).param0 = CONTENT_IGNORE := by
  have hidx : q.as_node_index % MAPBLOCK_SIZE < MAPBLOCK_SIZE :=
    Nat.mod_lt _ (by decide)
  unfold MapBlock.get_node_at
  dsimp only []
  simp only [MapBlock.unloaded]
  rw [List.getD_eq_getElem?_getD, List.getElem?_replicate, if_pos hidx]
  rfl

/-- C7: a cache miss at a position the storage collaborator reports
nonexistent succeeds with the canonical unloaded block — every one of
whose nodes resolves to content "ignore" — while any other collaborator
failure propagates out of get_entry unchanged. -/
theorem C7_missing_block_fallback (vm : VoxelManip) (pos : Position)
    (hmiss : assocLookup vm.mapblock_cache pos = none) :
    (∀ p2, vm.map.get_block_data pos = .error (.MapBlockNonexistent p2) →
      vm.get_entry pos =
        .ok ({ vm with mapblock_cache := (pos, ⟨MapBlock.unloaded, false⟩) :: vm.mapblock_cache },
             ⟨MapBlock.unloaded, false⟩) ∧
      ∀ q, (MapBlock.unloaded.get_node_at q).param0 = CONTENT_IGNORE) ∧
    (∀ e, (∀ p2, e ≠ MapDataError.MapBlockNonexistent p2) →
      vm.map.get_block_data pos = .error e →
      vm.get_entry pos = .error e) := by
  constructor
  · intro p2 hget
    refine ⟨?_, unloaded_all_ignore⟩
    unfold VoxelManip.get_entry
    rw [hmiss]
    dsimp only []
    unfold MapData.get_mapblock
    rw [hget]
  · intro e he hget
    unfold VoxelManip.get_entry
    rw [hmiss]
    dsimp only []
    unfold MapData.get_mapblock
    rw [hget]
    cases e with
    | MapBlockNonexistent p2 => exact absurd rfl (he p2)
    | SqlError c => rfl
    | RedisError c => rfl
    | MapBlockError c => rfl
    | IoError c => rfl

/-- Witness for C7: a fresh cache over a backend that reports every block
nonexistent, queried at the origin block position. -/
theorem C7_missing_block_fallback_witness :
    demoVM.get_entry ⟨0, 0, 0⟩ =
      .ok ({ demoVM with mapblock_cache := [(⟨0, 0, 0⟩, ⟨MapBlock.unloaded, false⟩)] },
           ⟨MapBlock.unloaded, false⟩) ∧
    ∀ q, (MapBlock.unloaded.get_node_at q).param0 = CONTENT_IGNORE :=
  (C7_missing_block_fallback demoVM ⟨0, 0, 0⟩ rfl).1 ⟨0, 0, 0⟩ rfl

theorem assocLookup_update_self {α β : Type} [DecidableEq α] (l : List (α × β)) (k : α) (v : β) :
    assocLookup (assocUpdate l k v) k = (assocLookup l k).map (fun _ => v) := by
  induction l with
  | nil => rfl
  | cons kv rest ih =>
    obtain ⟨k1, v1⟩ := kv
    by_cases h : k1 = k
    · subst h
      have e1 : assocUpdate ((k1, v1) :: rest) k1 v = (k1, v) :: assocUpdate rest k1 v := by
        simp [assocUpdate]
      rw [e1]
      rw [show assocLookup ((k1, v) :: assocUpdate rest k1 v) k1 = some v from by
        rw [assocLookup, if_pos rfl]]
      rw [show assocLookup ((k1, v1) :: rest) k1 = some v1 from by
        rw [assocLookup, if_pos rfl]]
      rfl
    · have e1 : assocUpdate ((k1, v1) :: rest) k v = (k1, v1) :: assocUpdate rest k v := by
        simp [assocUpdate, h]
      rw [e1]
      rw [show assocLookup ((k1, v1) :: assocUpdate rest k v) k =
            assocLookup (assocUpdate rest k v) k from by rw [assocLookup, if_neg h]]
      rw [show assocLookup ((k1, v1) :: rest) k = assocLookup rest k from by
        rw [assocLookup, if_neg h]]
      exact ih

theorem assocLookup_mem {α β : Type} [DecidableEq α] (l : List (α × β)) (k : α) (v : β)
    (h : assocLookup l k = some v) : (k, v) ∈ l := by
  induction l with
  | nil => cases h
  | cons kv rest ih =>
    obtain ⟨k1, v1⟩ := kv
    rw [assocLookup] at h
    by_cases he : k1 = k
    · rw [if_pos he] at h
      cases h
      subst he
      exact List.mem_cons_self _ _
    · rw [if_neg he] at h
      exact List.mem_cons_of_mem _ (ih h)

theorem get_entry_cases (vm : VoxelManip) (pos : Position) (vm2 : VoxelManip) (e : CacheEntry)
    (h : vm.get_entry pos = .ok (vm2, e)) :
    (vm2 = vm ∧ assocLookup vm.mapblock_cache pos = some e) ∨
      (assocLookup vm.mapblock_cache pos = none ∧ e.tainted = false ∧
        vm2.mapblock_cache = (pos, e) :: vm.mapblock_cache ∧ vm2.map = vm.map) := by
  unfold VoxelManip.get_entry at h
  cases hl : assocLookup vm.mapblock_cache pos with
  | some e2 =>
    rw [hl] at h
    dsimp only [] at h
    injection h with h1
    injection h1 with h2 h3
    subst h2
    subst h3
    exact Or.inl ⟨rfl, rfl⟩
  | none =>
    rw [hl] at h
    dsimp only [] at h
    right
    cases hg : vm.map.get_mapblock pos with
    | ok mb =>
      rw [hg] at h
      dsimp only [] at h
      injection h with h1
      injection h1 with h2 h3
      subst h2
      subst h3
      exact ⟨rfl, rfl, rfl, rfl⟩
    | error err =>
      rw [hg] at h
      cases err with
      | MapBlockNonexistent p2 =>
        dsimp only [] at h
        injection h with h1
        injection h1 with h2 h3
        subst h2
        subst h3
        exact ⟨rfl, rfl, rfl, rfl⟩
      | SqlError c =>
        dsimp only [] at h
        cases h
      | RedisError c =>
        dsimp only [] at h
        cases h
      | MapBlockError c =>
        dsimp only [] at h
        cases h
      | IoError c =>
        dsimp only [] at h
        cases h

theorem updated_cache_lookup (vm : VoxelManip) (blockpos : Position) (vmg : VoxelManip)
    (entry : CacheEntry) (hg : vm.get_entry blockpos = .ok (vmg, entry)) (ne : CacheEntry) :
    assocLookup (assocUpdate vmg.mapblock_cache blockpos ne) blockpos = some ne := by
  rcases get_entry_cases vm blockpos vmg entry hg with ⟨rfl, hsome⟩ | ⟨hnone, ht, hcons, hmap⟩
  · rw [assocLookup_update_self, hsome]
    rfl
  · rw [assocLookup_update_self, hcons]
    rw [assocLookup, if_pos rfl]
    rfl

theorem modify_mapblock_taints (vm : VoxelManip) (blockpos : Position)
    (op : MapBlock → MapBlock) (vm2 : VoxelManip)
    (h : vm.modify_mapblock blockpos op = .ok vm2) :
    ∃ mb, assocLookup vm2.mapblock_cache blockpos = some ⟨mb, true⟩ := by
  unfold VoxelManip.modify_mapblock at h
  cases hg : vm.get_entry blockpos with
  | error err =>
    rw [hg] at h
    cases h
  | ok r =>
    rw [hg] at h
    obtain ⟨vmg, entry⟩ := r
    dsimp only [] at h
    injection h with h1
    subst h1
    exact ⟨op entry.mapblock, updated_cache_lookup vm blockpos vmg entry hg _⟩

theorem modify_mapblock_p_taints (vm : VoxelManip) (blockpos : Position)
    (op : MapBlock → Option MapBlock) (vm2 : VoxelManip)
    (h : vm.modify_mapblock_p blockpos op = some (.ok vm2)) :
    ∃ mb, assocLookup vm2.mapblock_cache blockpos = some ⟨mb, true⟩ := by
  unfold VoxelManip.modify_mapblock_p at h
  cases hg : vm.get_entry blockpos with
  | error err =>
    rw [hg] at h
    dsimp only [] at h
    simp at h
  | ok r =>
    rw [hg] at h
    obtain ⟨vmg, entry⟩ := r
    dsimp only [] at h
    cases hop : op entry.mapblock with
    | none =>
      rw [hop] at h
      cases h
    | some mb =>
      rw [hop] at h
      simp only [Option.map_some', Option.some.injEq, Except.ok.injEq] at h
      subst h
      exact ⟨mb, updated_cache_lookup vm blockpos vmg entry hg _⟩

theorem commitEntries_spec (m : MapData) :
    ∀ l l2, commitEntries m l = .ok l2 →
      l2.map Prod.fst = l.map Prod.fst ∧ ∀ kv ∈ l2, kv.2.tainted = false := by
  intro l
  induction l with
  | nil =>
    intro l2 h
    injection h with h1
    subst h1
    refine ⟨rfl, ?_⟩
    intro kv hkv
    cases hkv
  | cons kv rest ih =>
    intro l2 h
    obtain ⟨pos, e⟩ := kv
    rw [commitEntries] at h
    by_cases ht : e.tainted = true
    · rw [if_pos ht] at h
      cases hset : m.set_mapblock pos e.mapblock with
      | error err =>
        rw [hset] at h
        cases h
      | ok u =>
        rw [hset] at h
        dsimp only [] at h
        cases hrest : commitEntries m rest with
        | error err =>
          rw [hrest] at h
          cases h
        | ok l3 =>
          rw [hrest] at h
          simp only [Except.map, Except.ok.injEq] at h
          subst h
          obtain ⟨ih1, ih2⟩ := ih l3 hrest
          refine ⟨by simp [ih1], ?_⟩
          intro kv2 hkv
          rcases List.mem_cons.mp hkv with rfl | hmem
          · rfl
          · exact ih2 kv2 hmem
    · rw [if_neg ht] at h
      cases hrest : commitEntries m rest with
      | error err =>
        rw [hrest] at h
        cases h
      | ok l3 =>
        rw [hrest] at h
        simp only [Except.map, Except.ok.injEq] at h
        subst h
        obtain ⟨ih1, ih2⟩ := ih l3 hrest
        refine ⟨by simp [ih1], ?_⟩
        intro kv2 hkv
        rcases List.mem_cons.mp hkv with rfl | hmem
        · simp only [Bool.not_eq_true] at ht
          exact ht
        · exact ih2 kv2 hmem

theorem commit_spec (vm : VoxelManip) (vm2 : VoxelManip) (h : vm.commit = .ok vm2) :
    vm2.mapblock_cache.map Prod.fst = vm.mapblock_cache.map Prod.fst ∧
      ∀ p e2, assocLookup vm2.mapblock_cache p = some e2 → e2.tainted = false := by
  unfold VoxelManip.commit at h
  cases hc : commitEntries vm.map vm.mapblock_cache with
  | error err =>
    rw [hc] at h
    cases h
  | ok l2 =>
    rw [hc] at h
    simp only [Except.map, Except.ok.injEq] at h
    subst h
    obtain ⟨h1, h2⟩ := commitEntries_spec vm.map vm.mapblock_cache l2 hc
    exact ⟨h1, fun p e2 hl => h2 (p, e2) (assocLookup_mem _ _ _ hl)⟩

theorem get_entry_taint_preserved (vm : VoxelManip) (pos : Position) (vm2 : VoxelManip)
    (e : CacheEntry) (h : vm.get_entry pos = .ok (vm2, e)) :
    ∀ p e2, assocLookup vm2.mapblock_cache p = some e2 → e2.tainted = true →
      assocLookup vm.mapblock_cache p = some e2 := by
  intro p e2 h2 htaint
  rcases get_entry_cases vm pos vm2 e h with ⟨rfl, _⟩ | ⟨hnone, ht, hcons, _⟩
  · exact h2
  · rw [hcons, assocLookup] at h2
    by_cases hp : pos = p
    · rw [if_pos hp] at h2
      cases h2
      rw [ht] at htaint
      cases htaint
    · rw [if_neg hp] at h2
      exact h2

theorem get_node_no_taint (vm : VoxelManip) (node_pos : Position) (vm2 : VoxelManip)
    (node : Node) (h : vm.get_node node_pos = .ok (vm2, node)) :
    ∀ p e2, assocLookup vm2.mapblock_cache p = some e2 → e2.tainted = true →
      assocLookup vm.mapblock_cache p = some e2 := by
  unfold VoxelManip.get_node VoxelManip.get_mapblock at h
  dsimp only [] at h
  cases hg : vm.get_entry node_pos.split_at_block.1 with
  | error err =>
    rw [hg] at h
    cases h
  | ok r =>
    rw [hg] at h
    obtain ⟨vmg, entry⟩ := r
    simp only [Except.map, Except.ok.injEq, Prod.mk.injEq] at h
    obtain ⟨rfl, _⟩ := h
    exact get_entry_taint_preserved vm _ vmg entry hg

/-- C9: every set-operation leaves the owning cache entry present and
dirty, with is_in_cache true for the touched position; a successful commit
leaves every entry clean without evicting any key; and a get_node marks
nothing dirty — any entry dirty afterwards was already cached dirty
before. -/
theorem C9_cache_dirty_tracking (vm : VoxelManip) :
    (∀ node_pos node vm2, vm.set_node node_pos node = some (.ok vm2) →
      (∃ mb, assocLookup vm2.mapblock_cache node_pos.mapblock_at = some ⟨mb, true⟩) ∧
        vm2.is_in_cache node_pos = true) ∧
    (∀ node_pos content vm2, vm.set_content node_pos content = some (.ok vm2) →
      (∃ mb, assocLookup vm2.mapblock_cache node_pos.mapblock_at = some ⟨mb, true⟩) ∧
        vm2.is_in_cache node_pos = true) ∧
    (∀ node_pos v vm2, vm.set_param1 node_pos v = .ok vm2 →
      (∃ mb, assocLookup vm2.mapblock_cache node_pos.mapblock_at = some ⟨mb, true⟩) ∧
        vm2.is_in_cache node_pos = true) ∧
    (∀ node_pos v vm2, vm.set_param2 node_pos v = .ok vm2 →
      (∃ mb, assocLookup vm2.mapblock_cache node_pos.mapblock_at = some ⟨mb, true⟩) ∧
        vm2.is_in_cache node_pos = true) ∧
    (∀ vm2, vm.commit = .ok vm2 →
      vm2.mapblock_cache.map Prod.fst = vm.mapblock_cache.map Prod.fst ∧
        ∀ p e2, assocLookup vm2.mapblock_cache p = some e2 → e2.tainted = false) ∧
    (∀ node_pos vm2 node, vm.get_node node_pos = .ok (vm2, node) →
      ∀ p e2, assocLookup vm2.mapblock_cache p = some e2 → e2.tainted = true →
        assocLookup vm.mapblock_cache p = some e2) := by
  have hcache : ∀ (node_pos : Position) (vm2 : VoxelManip),
      (∃ mb, assocLookup vm2.mapblock_cache node_pos.split_at_block.1 = some ⟨mb, true⟩) →
      (∃ mb, assocLookup vm2.mapblock_cache node_pos.mapblock_at = some ⟨mb, true⟩) ∧
        vm2.is_in_cache node_pos = true := by
    intro node_pos vm2 hex
    obtain ⟨mb, hmb⟩ := hex
    have hbn : node_pos.split_at_block.1 = node_pos.mapblock_at := rfl
    rw [hbn] at hmb
    refine ⟨⟨mb, hmb⟩, ?_⟩
    unfold VoxelManip.is_in_cache
    rw [hmb]
    rfl
  refine ⟨?_, ?_, ?_, ?_, ?_, ?_⟩
  · intro node_pos node vm2 h
    unfold VoxelManip.set_node at h
    exact hcache node_pos vm2 (modify_mapblock_p_taints vm _ _ vm2 h)
  · intro node_pos content vm2 h
    unfold VoxelManip.set_content at h
    exact hcache node_pos vm2 (modify_mapblock_p_taints vm _ _ vm2 h)
  · intro node_pos v vm2 h
    unfold VoxelManip.set_param1 at h
    exact hcache node_pos vm2 (modify_mapblock_taints vm _ _ vm2 h)
  · intro node_pos v vm2 h
    unfold VoxelManip.set_param2 at h
    exact hcache node_pos vm2 (modify_mapblock_taints vm _ _ vm2 h)
  · intro vm2 h
    exact commit_spec vm vm2 h
  · intro node_pos vm2 node h
    exact get_node_no_taint vm node_pos vm2 node h

/-- Witness for C9: set_param1 at the origin on a fresh cache over a
backend reporting every block nonexistent yields a tainted, cached entry. -/
theorem C9_cache_dirty_tracking_witness :
    (∃ mb, assocLookup demoVM1.mapblock_cache (Position.mk 0 0 0).mapblock_at =
      some ⟨mb, true⟩) ∧ demoVM1.is_in_cache ⟨0, 0, 0⟩ = true :=
  (C9_cache_dirty_tracking demoVM).2.2.1 ⟨0, 0, 0⟩ 7 demoVM1 (by rfl)
